import Mathlib

/-!
Verification development for the DomainMonitor repository (main.go).

The Go source is shallowly embedded: pure helpers (`parseDate`,
`HashDomainInfo`, `ParseWHOIS`, `LoadConfig`) become Lean functions; the
external collaborators (the WHOIS client `whois.Whois`, the parser
`whoisparser.Parse`, DNS lookup `net.LookupIP`, the YAML decoder and the
HTTP client) are parameters (oracles), exactly at the call boundaries the
source uses.  Go machine integers in scope are small non-negative counts,
modelled as `Nat`; 32-bit arithmetic inside SHA-256 is `Nat` with explicit
reduction `&&& 0xffffffff`.  Strings in scope are ASCII, so a Go string
(a byte sequence) is modelled as a Lean `String` with bytes `Char.toNat`.

The Go standard-library behaviour that the source leans on (`time.Parse`
for the six layouts listed in `parseDate`, `time.Time.String`,
`fmt.Sprintf("%v", ...)` on the `DomainInfo` struct, `crypto/sha256`) is
embedded faithfully for the ASCII, whole-second inputs in scope, with the
process-local timezone fixed to UTC (the deployment default for the
container the monitor documents).
-/

namespace DomainMonitor

/-- Character code of a decimal digit. -/
def digitChar (n : Nat) : Char := Char.ofNat (48 + n)

/-- Decimal digits, most significant first; structural recursion on a
fuel bound so the definition reduces in the kernel. -/
def natDigitsFuel : Nat → Nat → List Char
  | 0, n => [digitChar n]
  | fuel + 1, n =>
      if n < 10 then [digitChar n]
      else natDigitsFuel fuel (n / 10) ++ [digitChar (n % 10)]

/-- Decimal digits of a natural number, most significant first. -/
def natDigits (n : Nat) : List Char := natDigitsFuel n n

/-- Decimal rendering of a natural number. -/
def natStr (n : Nat) : String := String.mk (natDigits n)

/-- Two-digit zero-padded rendering (Go format verb `02`). -/
def pad2 (n : Nat) : String := if n < 10 then "0" ++ natStr n else natStr n

/-- Four-digit zero-padded rendering (Go format verb `2006` for years). -/
def pad4 (n : Nat) : String :=
  if n < 10 then "000" ++ natStr n
  else if n < 100 then "00" ++ natStr n
  else if n < 1000 then "0" ++ natStr n
  else natStr n

/-- Model of a Go `time.Time` value as far as the monitor observes it:
the broken-down civil time, the zone offset in minutes and the zone name.
`time.Parse` never yields sub-second precision for the six layouts used by
the source, so fractional seconds are absent. -/
structure GoTime where
  year : Nat
  month : Nat
  day : Nat
  hour : Nat
  minute : Nat
  second : Nat
  offsetMinutes : Int
  zoneName : String
  deriving DecidableEq

/-- The zero `time.Time` (Go prints it as `0001-01-01 00:00:00 +0000 UTC`). -/
def goZeroTime : GoTime := ⟨1, 1, 1, 0, 0, 0, 0, "UTC"⟩

/-- Zone-offset rendering, Go layout `-0700` (sign, hours, minutes). -/
def offsetString (mins : Int) : String :=
  let a := mins.natAbs
  (if mins < 0 then "-" else "+") ++ pad2 (a / 60) ++ pad2 (a % 60)

/-- Rendering of `time.Time.String()`: layout
`2006-01-02 15:04:05.999999999 -0700 MST`, with zero fractional seconds
omitted and the numeric offset repeated when the zone has no name. -/
def goTimeString (t : GoTime) : String :=
  pad4 t.year ++ "-" ++ pad2 t.month ++ "-" ++ pad2 t.day ++ " " ++
    pad2 t.hour ++ ":" ++ pad2 t.minute ++ ":" ++ pad2 t.second ++ " " ++
    offsetString t.offsetMinutes ++ " " ++
    (if t.zoneName = "" then offsetString t.offsetMinutes else t.zoneName)

/-- Parse exactly `n` ASCII digits, accumulating their value. -/
def parseNDigits : Nat → Nat → List Char → Option (Nat × List Char)
  | 0, acc, cs => some (acc, cs)
  | _ + 1, _, [] => none
  | n + 1, acc, c :: cs =>
      if c.isDigit then parseNDigits n (acc * 10 + (c.toNat - 48)) cs else none

/-- Consume one expected literal character. -/
def expectChar (ch : Char) : List Char → Option (List Char)
  | [] => none
  | c :: cs => if c = ch then some cs else none

/-- Gregorian leap-year rule (as in Go `time`). -/
def isLeapYear (y : Nat) : Bool :=
  y % 4 = 0 && (y % 100 ≠ 0 || y % 400 = 0)

/-- Days in a month, used by `time.Parse` to validate the day field. -/
def daysInMonth (y m : Nat) : Nat :=
  if m = 2 then (if isLeapYear y then 29 else 28)
  else if m = 4 ∨ m = 6 ∨ m = 9 ∨ m = 11 then 30
  else 31

/-- Parse `2006-01-02` (four-digit year, two-digit month and day) with the
range validation `time.Parse` applies. -/
def parseYMD (cs : List Char) : Option (Nat × Nat × Nat × List Char) := do
  let (y, cs) ← parseNDigits 4 0 cs
  let cs ← expectChar '-' cs
  let (m, cs) ← parseNDigits 2 0 cs
  let cs ← expectChar '-' cs
  let (d, cs) ← parseNDigits 2 0 cs
  if 1 ≤ m ∧ m ≤ 12 ∧ 1 ≤ d ∧ d ≤ daysInMonth y m then pure (y, m, d, cs) else none

/-- Parse `15:04:05` with the range validation `time.Parse` applies. -/
def parseHMS (cs : List Char) : Option (Nat × Nat × Nat × List Char) := do
  let (hh, cs) ← parseNDigits 2 0 cs
  let cs ← expectChar ':' cs
  let (mi, cs) ← parseNDigits 2 0 cs
  let cs ← expectChar ':' cs
  let (ss, cs) ← parseNDigits 2 0 cs
  if hh ≤ 23 ∧ mi ≤ 59 ∧ ss ≤ 59 then pure (hh, mi, ss, cs) else none

/-- Lower-cased three-letter month abbreviations, in month order
(`time.Parse` matches month names case-insensitively). -/
def monthAbbrevs : List (List Char) :=
  [['j','a','n'], ['f','e','b'], ['m','a','r'], ['a','p','r'], ['m','a','y'],
   ['j','u','n'], ['j','u','l'], ['a','u','g'], ['s','e','p'], ['o','c','t'],
   ['n','o','v'], ['d','e','c']]

/-- Parse a three-letter month abbreviation (layout element `Jan`). -/
def parseMonthName : List Char → Option (Nat × List Char)
  | c1 :: c2 :: c3 :: cs =>
      match monthAbbrevs.findIdx? (· = [c1.toLower, c2.toLower, c3.toLower]) with
      | some i => some (i + 1, cs)
      | none => none
  | _ => none

/-- Parse the RFC 3339 zone suffix: `Z` or a signed `hh:mm` offset,
returned in minutes. -/
def parseRfcZone : List Char → Option Int
  | ['Z'] => some 0
  | c :: cs =>
      if c = '+' ∨ c = '-' then
        match parseNDigits 2 0 cs with
        | some (hh, cs1) =>
            match expectChar ':' cs1 with
            | some cs2 =>
                match parseNDigits 2 0 cs2 with
                | some (mm, []) =>
                    if hh ≤ 23 ∧ mm ≤ 59 then
                      some (if c = '-' then -(Int.ofNat (hh * 60 + mm))
                            else Int.ofNat (hh * 60 + mm))
                    else none
                | _ => none
            | none => none
        | none => none
      else none
  | [] => none

/-- Parse a trailing three-letter upper-case zone abbreviation
(layout element `MST`). -/
def parseZone3 : List Char → Option String
  | [c1, c2, c3] =>
      if ('A' ≤ c1 ∧ c1 ≤ 'Z') ∧ ('A' ≤ c2 ∧ c2 ≤ 'Z') ∧ ('A' ≤ c3 ∧ c3 ≤ 'Z') then
        some (String.mk [c1, c2, c3])
      else none
  | _ => none

/-- Layout `2006-01-02T15:04:05Z07:00` (`time.RFC3339`).  With the process
zone fixed to UTC, a zero offset resolves to the named UTC zone and a
non-zero offset to a nameless fixed zone, as in `time.Parse`. -/
def rfc3339Parse (s : String) : Option GoTime := do
  let (y, m, d, cs) ← parseYMD s.data
  let cs ← expectChar 'T' cs
  let (hh, mi, ss, cs) ← parseHMS cs
  let off ← parseRfcZone cs
  pure ⟨y, m, d, hh, mi, ss, off, if off = 0 then "UTC" else ""⟩

/-- Layout `2006-01-02T15:04:05Z` — here the trailing `Z` is a literal
character and the parsed time is UTC. -/
def isoZParse (s : String) : Option GoTime := do
  let (y, m, d, cs) ← parseYMD s.data
  let cs ← expectChar 'T' cs
  let (hh, mi, ss, cs) ← parseHMS cs
  match cs with
  | ['Z'] => pure ⟨y, m, d, hh, mi, ss, 0, "UTC"⟩
  | _ => none

/-- Layout `2006-01-02 15:04:05`, parsed as UTC. -/
def spaceParse (s : String) : Option GoTime := do
  let (y, m, d, cs) ← parseYMD s.data
  let cs ← expectChar ' ' cs
  let (hh, mi, ss, cs) ← parseHMS cs
  match cs with
  | [] => pure ⟨y, m, d, hh, mi, ss, 0, "UTC"⟩
  | _ => none

/-- Layout `2006-01-02`, parsed as UTC midnight. -/
def dateOnlyParse (s : String) : Option GoTime := do
  let (y, m, d, cs) ← parseYMD s.data
  match cs with
  | [] => pure ⟨y, m, d, 0, 0, 0, 0, "UTC"⟩
  | _ => none

/-- Parse `02-Jan-2006` (two-digit day, month name, four-digit year). -/
def dmyCore (cs : List Char) : Option (Nat × Nat × Nat × List Char) := do
  let (d, cs) ← parseNDigits 2 0 cs
  let cs ← expectChar '-' cs
  let (m, cs) ← parseMonthName cs
  let cs ← expectChar '-' cs
  let (y, cs) ← parseNDigits 4 0 cs
  if 1 ≤ d ∧ d ≤ daysInMonth y m then pure (y, m, d, cs) else none

/-- Layout `02-Jan-2006`, parsed as UTC midnight. -/
def dmyParse (s : String) : Option GoTime := do
  let (y, m, d, cs) ← dmyCore s.data
  match cs with
  | [] => pure ⟨y, m, d, 0, 0, 0, 0, "UTC"⟩
  | _ => none

/-- Layout `02-Jan-2006 15:04:05 MST`.  An abbreviation other than the
process zone (UTC) yields a fabricated zone with that name and offset 0,
as `time.Parse` does for unknown abbreviations. -/
def dmyTzParse (s : String) : Option GoTime := do
  let (y, m, d, cs) ← dmyCore s.data
  let cs ← expectChar ' ' cs
  let (hh, mi, ss, cs) ← parseHMS cs
  let cs ← expectChar ' ' cs
  let zn ← parseZone3 cs
  pure ⟨y, m, d, hh, mi, ss, 0, zn⟩

/-- The layout list of `parseDate` in main.go, in source order. -/
def dateLayouts : List String :=
  ["2006-01-02T15:04:05Z07:00",
   "2006-01-02T15:04:05Z",
   "2006-01-02 15:04:05",
   "2006-01-02",
   "02-Jan-2006",
   "02-Jan-2006 15:04:05 MST"]

/-- Dispatch of `time.Parse` on the six layouts the source uses. -/
def goTimeParse (layout : String) (s : String) : Option GoTime :=
  if layout = "2006-01-02T15:04:05Z07:00" then rfc3339Parse s
  else if layout = "2006-01-02T15:04:05Z" then isoZParse s
  else if layout = "2006-01-02 15:04:05" then spaceParse s
  else if layout = "2006-01-02" then dateOnlyParse s
  else if layout = "02-Jan-2006" then dmyParse s
  else if layout = "02-Jan-2006 15:04:05 MST" then dmyTzParse s
  else none

/-- The loop body of `parseDate`: try each layout in order, return the
first successful parse, else fall through. -/
def parseDateGo : List String → String → GoTime
  | [], _ => goZeroTime
  | f :: rest, s =>
      match goTimeParse f s with
      | some t => t
      | none => parseDateGo rest s

/-- Model of `parseDate` in main.go: first layout that parses wins; if
none parses, the zero time is returned. -/
def parseDate (s : String) : GoTime := parseDateGo dateLayouts s

/-- Reduction to 32 bits. -/
def mask32 (x : Nat) : Nat := x &&& 4294967295

/-- Right rotation of a 32-bit word. -/
def rotr32 (n x : Nat) : Nat := mask32 ((x >>> n) ||| (x <<< (32 - n)))

/-- SHA-256 Ch function. -/
def shaCh (e f g : Nat) : Nat := (e &&& f) ^^^ ((e ^^^ 4294967295) &&& g)

/-- SHA-256 Maj function. -/
def shaMaj (a b c : Nat) : Nat := (a &&& b) ^^^ (a &&& c) ^^^ (b &&& c)

/-- SHA-256 big sigma 0. -/
def shaS0 (a : Nat) : Nat := rotr32 2 a ^^^ rotr32 13 a ^^^ rotr32 22 a

/-- SHA-256 big sigma 1. -/
def shaS1 (e : Nat) : Nat := rotr32 6 e ^^^ rotr32 11 e ^^^ rotr32 25 e

/-- SHA-256 small sigma 0. -/
def shaLs0 (x : Nat) : Nat := rotr32 7 x ^^^ rotr32 18 x ^^^ (x >>> 3)

/-- SHA-256 small sigma 1. -/
def shaLs1 (x : Nat) : Nat := rotr32 17 x ^^^ rotr32 19 x ^^^ (x >>> 10)

/-- SHA-256 round constants (FIPS 180-4, written in decimal). -/
def shaK : List Nat :=
  [1116352408, 1899447441, 3049323471, 3921009573, 961987163,
   1508970993, 2453635748, 2870763221, 3624381080, 310598401,
   607225278, 1426881987, 1925078388, 2162078206, 2614888103,
   3248222580, 3835390401, 4022224774, 264347078, 604807628,
   770255983, 1249150122, 1555081692, 1996064986, 2554220882,
   2821834349, 2952996808, 3210313671, 3336571891, 3584528711,
   113926993, 338241895, 666307205, 773529912, 1294757372,
   1396182291, 1695183700, 1986661051, 2177026350, 2456956037,
   2730485921, 2820302411, 3259730800, 3345764771, 3516065817,
   3600352804, 4094571909, 275423344, 430227734, 506948616,
   659060556, 883997877, 958139571, 1322822218, 1537002063,
   1747873779, 1955562222, 2024104815, 2227730452, 2361852424,
   2428436474, 2756734187, 3204031479, 3329325298]

/-- SHA-256 working state (eight 32-bit words). -/
structure Hash8 where
  a : Nat
  b : Nat
  c : Nat
  d : Nat
  e : Nat
  f : Nat
  g : Nat
  h : Nat
  deriving DecidableEq

/-- SHA-256 initial hash value (FIPS 180-4, written in decimal). -/
def shaInit : Hash8 :=
  ⟨1779033703, 3144134277, 1013904242, 2773480762,
   1359893119, 2600822924, 528734635, 1541459225⟩

/-- Big-endian byte rendering of a value on `n` bytes. -/
def beBytes : Nat → Nat → List Nat
  | 0, _ => []
  | n + 1, v => beBytes n (v >>> 8) ++ [v &&& 255]

/-- SHA-256 padding: append `0x80`, zeros, and the 64-bit message bit
length, reaching a multiple of 64 bytes. -/
def shaPad (msg : List Nat) : List Nat :=
  msg ++ 128 :: List.replicate ((119 - msg.length % 64) % 64) 0 ++ beBytes 8 (8 * msg.length)

/-- Group a byte list into big-endian 32-bit words. -/
def toWords : List Nat → List Nat
  | b0 :: b1 :: b2 :: b3 :: rest =>
      ((((b0 <<< 8) ||| b1) <<< 8 ||| b2) <<< 8 ||| b3) :: toWords rest
  | _ => []

/-- Extend the sixteen block words to the 64-entry message schedule. -/
def shaSchedule (w16 : List Nat) : List Nat :=
  (List.range 48).foldl
    (fun w _ =>
      w ++ [mask32 (shaLs1 (w.getD (w.length - 2) 0) + w.getD (w.length - 7) 0 +
                    shaLs0 (w.getD (w.length - 15) 0) + w.getD (w.length - 16) 0)])
    w16

/-- One SHA-256 round. -/
def shaRound (st : Hash8) (kw : Nat × Nat) : Hash8 :=
  let t1 := mask32 (st.h + shaS1 st.e + shaCh st.e st.f st.g + kw.1 + kw.2)
  let t2 := mask32 (shaS0 st.a + shaMaj st.a st.b st.c)
  ⟨mask32 (t1 + t2), st.a, st.b, st.c, mask32 (st.d + t1), st.e, st.f, st.g⟩

/-- SHA-256 compression of one 64-byte block. -/
def shaBlock (hs : Hash8) (block : List Nat) : Hash8 :=
  let st := (shaK.zip (shaSchedule (toWords block))).foldl shaRound hs
  ⟨mask32 (hs.a + st.a), mask32 (hs.b + st.b), mask32 (hs.c + st.c),
   mask32 (hs.d + st.d), mask32 (hs.e + st.e), mask32 (hs.f + st.f),
   mask32 (hs.g + st.g), mask32 (hs.h + st.h)⟩

/-- Split a byte list into 64-byte blocks; structural recursion on a fuel
bound so the definition reduces in the kernel. -/
def splitBlocksFuel : Nat → List Nat → List (List Nat)
  | 0, _ => []
  | fuel + 1, l => if l = [] then [] else l.take 64 :: splitBlocksFuel fuel (l.drop 64)

/-- Split a byte list into 64-byte blocks. -/
def splitBlocks (l : List Nat) : List (List Nat) := splitBlocksFuel l.length l

/-- SHA-256 digest (32 bytes) of a byte list (`crypto/sha256.Sum256`). -/
def sha256Bytes (msg : List Nat) : List Nat :=
  let hs := ((splitBlocks (shaPad msg)).foldl shaBlock shaInit)
  [hs.a, hs.b, hs.c, hs.d, hs.e, hs.f, hs.g, hs.h].flatMap (beBytes 4)

/-- Lower-case hexadecimal digit. -/
def hexDigit (n : Nat) : Char :=
  if n < 10 then Char.ofNat (48 + n) else Char.ofNat (87 + n)

/-- Lower-case hexadecimal rendering of a byte list (Go verb `%x`). -/
def bytesToHex (bs : List Nat) : String :=
  String.mk (bs.flatMap (fun b => [hexDigit (b >>> 4), hexDigit (b &&& 15)]))

/-- Bytes of an ASCII string (every string in scope is ASCII, so the Go
byte sequence is the character codes). -/
def strBytes (s : String) : List Nat := s.data.map Char.toNat

/-- Configuration webhook entry (struct `Webhook` in main.go). -/
structure Webhook where
  type : String
  url : String
  deriving DecidableEq

/-- Configuration domain entry (struct `Domain` in main.go). -/
structure Domain where
  name : String
  webhooks : List Webhook
  deriving DecidableEq

/-- Configuration (struct `Config` in main.go).  The interval is a Go
`int`, modelled as `Int`. -/
structure Config where
  interval : Int
  domains : List Domain
  webhooks : List Webhook
  deriving DecidableEq

/-- WHOIS information and DNS resolution of one domain (struct
`DomainInfo` in main.go). -/
structure DomainInfo where
  domain : String
  registrarTag : String
  nameServers : List String
  creationDate : GoTime
  expiryDate : GoTime
  updatedDate : GoTime
  ipAddress : String
  deriving DecidableEq

/-- Space-separated concatenation (how Go `%v` prints slice elements). -/
def joinSpace : List String → String
  | [] => ""
  | [s] => s
  | s :: rest => s ++ " " ++ joinSpace rest

/-- The string `fmt.Sprintf("%v", *info)` produces for a `DomainInfo`
value: fields in declaration order inside braces, separated by single
spaces, the name-server slice bracketed, times via `time.Time.String`. -/
def encodeDomainInfo (i : DomainInfo) : String :=
  "\x7b" ++ i.domain ++ " " ++ i.registrarTag ++ " [" ++ joinSpace i.nameServers ++ "] " ++
    goTimeString i.creationDate ++ " " ++ goTimeString i.expiryDate ++ " " ++
    goTimeString i.updatedDate ++ " " ++ i.ipAddress ++ "\x7d"

/-- Model of `HashDomainInfo` in main.go: the lower-case hex SHA-256
digest of the `%v` rendering of the struct. -/
def HashDomainInfo (info : DomainInfo) : String :=
  bytesToHex (sha256Bytes (strBytes (encodeDomainInfo info)))

/-- Output record of the external library `whoisparser.Parse`, at the
fields main.go reads: registrar name, optional name-server slice, and the
three raw date strings (empty when absent). -/
structure WhoisRecord where
  registrarName : String
  nameServers : Option (List String)
  createdDate : String
  expirationDate : String
  updatedDate : String
  deriving DecidableEq

/-- Model of `ParseWHOIS` in main.go.  `wparse` stands for the external
`whoisparser.Parse`; each field of the result is copied under the same
conditional guard the source uses, dates through `parseDate`. -/
def ParseWHOIS (wparse : String → Except String WhoisRecord)
    (domain response : String) : Except String DomainInfo :=
  match wparse response with
  | .error e => .error e
  | .ok r =>
      let i0 : DomainInfo :=
        ⟨domain, "", [], goZeroTime, goZeroTime, goZeroTime, ""⟩
      let i1 := if r.registrarName ≠ "" then { i0 with registrarTag := r.registrarName } else i0
      let i2 := match r.nameServers with
                | some ns => { i1 with nameServers := ns }
                | none => i1
      let i3 := if r.createdDate ≠ "" then { i2 with creationDate := parseDate r.createdDate } else i2
      let i4 := if r.expirationDate ≠ "" then { i3 with expiryDate := parseDate r.expirationDate } else i3
      let i5 := if r.updatedDate ≠ "" then { i4 with updatedDate := parseDate r.updatedDate } else i4
      .ok i5

/-- Model of `ResolveIP` in main.go.  `lookupIP` stands for the external
`net.LookupIP`; the source takes the first address and errors when the
list is empty. -/
def ResolveIP (lookupIP : String → Except String (List String))
    (domain : String) : Except String String :=
  match lookupIP domain with
  | .error e => .error e
  | .ok [] => .error ("no IP addresses found for domain " ++ domain)
  | .ok (ip :: _) => .ok ip

/-- Model of `LoadConfig` in main.go.  `decoded` stands for the result of
opening the file and YAML-decoding it (both external); the source then
clamps a low interval up to 5. -/
def LoadConfig (decoded : Except String Config) : Except String Config :=
  match decoded with
  | .error e => .error e
  | .ok config =>
      if config.interval < 5 then .ok { config with interval := 5 } else .ok config

/-- Kind of a state transition the cycle classifies. -/
inductive EventKind
  | enabled
  | changed
  | removed
  deriving DecidableEq

/-- A classified transition, recorded when the source builds the
notification message for it. -/
structure Event where
  kind : EventKind
  domain : String
  message : String
  deriving DecidableEq

/-- Outcome of one `SendWebhook` call that returns (the source logs the
error cases and carries on). -/
inductive SendOutcome
  | delivered
  | unsupportedType (t : String)
  | transportError (e : String)
  | httpError (status : Nat)
  deriving DecidableEq

/-- Result of one `SendWebhook` call: either it returns with an outcome,
or it panics (nil-pointer dereference). -/
inductive SendResult
  | panicked
  | done (outcome : SendOutcome)
  deriving DecidableEq

/-- The JSON payload `SendWebhook` marshals, by sink kind (the byte-level
JSON encoding is the external `encoding/json`). -/
inductive Payload
  | pagerduty (summary severity source routingKey eventAction : String)
  | teams (text : String)
  | discord (title description : String) (color : Nat)
  deriving DecidableEq

/-- One attempted HTTP delivery, as observed at the `SendWebhook` call
sites inside `MonitorDomains`. -/
structure Delivery where
  domain : String
  webhook : Webhook
  message : String
  outcome : SendOutcome
  deriving DecidableEq

/-- The discord embed description `SendWebhook` formats from every
`DomainInfo` field. -/
def discordDescription (i : DomainInfo) : String :=
  "Details: \n- Domain: " ++ i.domain ++ "\n- Registrar: " ++ i.registrarTag ++
    "\n- Name Servers: [" ++ joinSpace i.nameServers ++ "]" ++
    "\n- Creation Date: " ++ goTimeString i.creationDate ++
    "\n- Expiry Date: " ++ goTimeString i.expiryDate ++
    "\n- Updated Date: " ++ goTimeString i.updatedDate ++
    "\n- IP Address: " ++ i.ipAddress

/-- The POST and status check of `SendWebhook`: `post` stands for the
external HTTP client; a transport error or a status of 300 or more is an
error return. -/
def deliverOutcome (post : Webhook → Payload → Except String Nat)
    (wh : Webhook) (p : Payload) : SendOutcome :=
  match post wh p with
  | .error e => .transportError e
  | .ok status => if 300 ≤ status then .httpError status else .delivered

/-- Model of `SendWebhook` in main.go.  The discord branch reads the
fields of `domainInfo` unconditionally, so a missing observation (the nil
pointer the removed-domain loop passes) is a panic; an unknown sink type
is an error return before any POST. -/
def SendWebhook (post : Webhook → Payload → Except String Nat)
    (wh : Webhook) (message : String) (domainInfo : Option DomainInfo) : SendResult :=
  if wh.type = "pagerduty" then
    .done (deliverOutcome post wh (.pagerduty message "info" "domain-monitor" wh.url "trigger"))
  else if wh.type = "teams" then
    .done (deliverOutcome post wh (.teams message))
  else if wh.type = "discord" then
    match domainInfo with
    | none => .panicked
    | some i => .done (deliverOutcome post wh (.discord message (discordDescription i) 3447003))
  else
    .done (.unsupportedType wh.type)

/-- One of the webhook loops in `MonitorDomains`: send to each sink in
turn, recording each attempt; an error outcome is logged and the loop
continues, a panic aborts on the spot. -/
def sendSeq (post : Webhook → Payload → Except String Nat)
    (dname message : String) (info : Option DomainInfo) :
    List Webhook → List Delivery × Bool
  | [] => ([], false)
  | wh :: rest =>
      match SendWebhook post wh message info with
      | .panicked => ([], true)
      | .done outcome =>
          (⟨dname, wh, message, outcome⟩ :: (sendSeq post dname message info rest).1,
           (sendSeq post dname message info rest).2)

/-- Lookup in the model of a Go `map[string]string`. -/
def lookupSM : List (String × String) → String → Option String
  | [], _ => none
  | p :: rest, k => if p.1 = k then some p.2 else lookupSM rest k

/-- Insertion into the model of a Go `map[string]string`: overwrite an
existing binding, else add one. -/
def insertSM : List (String × String) → String → String → List (String × String)
  | [], k, v => [(k, v)]
  | p :: rest, k, v => if p.1 = k then (k, v) :: rest else p :: insertSM rest k v

/-- The external collaborators one cycle calls, at the exact call
boundaries of the source: the WHOIS client, the WHOIS parser, the DNS
lookup and the HTTP POST. -/
structure Oracles where
  whois : String → Except String String
  wparse : String → Except String WhoisRecord
  lookupIP : String → Except String (List String)
  post : Webhook → Payload → Except String Nat

/-- The fetch pipeline of the per-domain loop in `MonitorDomains`:
WHOIS fetch, `ParseWHOIS`, `ResolveIP`; any failure skips the domain for
the cycle (`continue` in the source), success yields the observation with
its resolved address. -/
def observeFull (o : Oracles) (name : String) : Option DomainInfo :=
  match o.whois name with
  | .error _ => none
  | .ok response =>
      match ParseWHOIS o.wparse name response with
      | .error _ => none
      | .ok info =>
          match ResolveIP o.lookupIP name with
          | .error _ => none
          | .ok ip => some { info with ipAddress := ip }

/-- Summary string for an `Enabled` transition. -/
def enabledMsg (name : String) : String := "Monitoring enabled for domain: " ++ name

/-- Summary string for a `Changed` transition. -/
def changedMsg (name : String) : String := "Domain information changed for: " ++ name

/-- Summary string for a `Removed` transition. -/
def removedMsg (name : String) : String := "Monitoring finished for domain: " ++ name

/-- Output of the first loop of `MonitorDomains`: events, deliveries, the
`currentStates` map built so far, and whether a dispatch panicked. -/
structure Phase1Out where
  events : List Event
  deliveries : List Delivery
  cur : List (String × String)
  panicked : Bool
  deriving DecidableEq

/-- Output of the removed-domain loop of `MonitorDomains`. -/
structure Phase2Out where
  events : List Event
  deliveries : List Delivery
  panicked : Bool
  deriving DecidableEq

/-- The first loop of `MonitorDomains`: per configured domain, fetch and
observe (skipping on failure), record the fingerprint in `currentStates`,
and classify against `previousStates` — absent means `Enabled`, a
differing fingerprint means `Changed`, an equal one is silent.  Events
dispatch to the domain sinks then the global sinks; a panic aborts. -/
def runDomains (o : Oracles) (config : Config) (prev : List (String × String)) :
    List Domain → List (String × String) → Phase1Out
  | [], cur => ⟨[], [], cur, false⟩
  | dom :: rest, cur =>
      match observeFull o dom.name with
      | none => runDomains o config prev rest cur
      | some info =>
          let hash := HashDomainInfo info
          let cur1 := insertSM cur dom.name hash
          match lookupSM prev dom.name with
          | none =>
              let msg := enabledMsg dom.name
              let sq := sendSeq o.post dom.name msg (some info) (dom.webhooks ++ config.webhooks)
              if sq.2 then ⟨[⟨.enabled, dom.name, msg⟩], sq.1, cur1, true⟩
              else
                let r := runDomains o config prev rest cur1
                ⟨⟨.enabled, dom.name, msg⟩ :: r.events, sq.1 ++ r.deliveries, r.cur, r.panicked⟩
          | some previousHash =>
              if previousHash ≠ hash then
                let msg := changedMsg dom.name
                let sq := sendSeq o.post dom.name msg (some info) (dom.webhooks ++ config.webhooks)
                if sq.2 then ⟨[⟨.changed, dom.name, msg⟩], sq.1, cur1, true⟩
                else
                  let r := runDomains o config prev rest cur1
                  ⟨⟨.changed, dom.name, msg⟩ :: r.events, sq.1 ++ r.deliveries, r.cur, r.panicked⟩
              else runDomains o config prev rest cur1

/-- The sinks the removed-domain loop consults for a name: the webhook
lists of the config entries bearing the name (the source's nested loop
over `config.Domains`), then the global webhook list. -/
def remSinks (config : Config) (n : String) : List Webhook :=
  (config.domains.filter (fun dm => decide (dm.name = n))).flatMap Domain.webhooks ++
    config.webhooks

/-- The removed-domain loop of `MonitorDomains`: for every previous entry
absent from `currentStates`, dispatch a `Removed` notification (which
carries no observation) to the sinks of config entries bearing the name
and then to the global sinks. -/
def runRemoved (o : Oracles) (config : Config) (cur : List (String × String)) :
    List (String × String) → Phase2Out
  | [] => ⟨[], [], false⟩
  | entry :: rest =>
      if (lookupSM cur entry.1).isSome then runRemoved o config cur rest
      else
        let msg := removedMsg entry.1
        let sq := sendSeq o.post entry.1 msg none (remSinks config entry.1)
        if sq.2 then ⟨[⟨.removed, entry.1, msg⟩], sq.1, true⟩
        else
          let r := runRemoved o config cur rest
          ⟨⟨.removed, entry.1, msg⟩ :: r.events, sq.1 ++ r.deliveries, r.panicked⟩

/-- Observable trace of one `MonitorDomains` call: the classified events,
the attempted deliveries, and the returned `currentStates` map — `none`
when a panic unwound the call before it could return. -/
structure RunTrace where
  events : List Event
  deliveries : List Delivery
  result : Option (List (String × String))
  deriving DecidableEq

/-- Model of `MonitorDomains` in main.go: the per-domain loop over the
configuration, then the removed-domain loop over `previousStates`, then
the return of the freshly built `currentStates`. -/
def MonitorDomains (o : Oracles) (config : Config)
    (previousStates : List (String × String)) : RunTrace :=
  let r1 := runDomains o config previousStates config.domains []
  if r1.panicked then ⟨r1.events, r1.deliveries, none⟩
  else
    let r2 := runRemoved o config r1.cur previousStates
    if r2.panicked then ⟨r1.events ++ r2.events, r1.deliveries ++ r2.deliveries, none⟩
    else ⟨r1.events ++ r2.events, r1.deliveries ++ r2.deliveries, some r1.cur⟩

/-- Termination status of the polling loop in `main` after a bounded
number of ticks. -/
inductive LoopOutcome
  | stopped (cycle : Nat) (err : String)
  | crashed (cycle : Nat)
  | running (st : List (String × String))
  deriving DecidableEq

/-- Model of the loop in `main`: each tick reloads the configuration
(`loads k` is the result of `LoadConfig` at tick `k`), stops the process
on a load error, runs one cycle, carries the returned state map forward,
and sleeps (time is not observed).  `fuel` bounds the ticks examined. -/
def mainLoop (loads : Nat → Except String Config) (o : Oracles) :
    Nat → Nat → List (String × String) → LoopOutcome
  | 0, _, st => .running st
  | fuel + 1, k, st =>
      match loads k with
      | .error e => .stopped k e
      | .ok config =>
          match (MonitorDomains o config st).result with
          | none => .crashed k
          | some next => mainLoop loads o fuel (k + 1) next

/-- Events concerning one domain name. -/
def eventsFor (n : String) (evs : List Event) : List Event :=
  evs.filter (fun e => decide (e.domain = n))

/-- Deliveries concerning one domain name. -/
def deliveriesFor (n : String) (ds : List Delivery) : List Delivery :=
  ds.filter (fun d => decide (d.domain = n))

/-- The `currentStates` map the first loop builds: fingerprint per
successfully observed configured domain, in configuration order, later
occurrences overwriting earlier ones. -/
def statesAfter (o : Oracles) : List Domain → List (String × String) → List (String × String)
  | [], cur => cur
  | dom :: rest, cur =>
      match observeFull o dom.name with
      | none => statesAfter o rest cur
      | some info => statesAfter o rest (insertSM cur dom.name (HashDomainInfo info))

/-- Transition classification as the specification states it, per domain:
`Enabled` for an observed domain absent from the previous map, `Changed`
for a differing fingerprint, silence for an equal one, `Removed` for a
previous domain not observed this cycle, and nothing for a domain in
neither set.  Used to compare the implementation trace against the
specified event set. -/
def expectedEventsFor (o : Oracles) (config : Config)
    (prev : List (String × String)) (d : String) : List Event :=
  if config.domains.any (fun dm => decide (dm.name = d)) then
    match observeFull o d with
    | some info =>
        match lookupSM prev d with
        | none => [⟨.enabled, d, enabledMsg d⟩]
        | some h => if h = HashDomainInfo info then [] else [⟨.changed, d, changedMsg d⟩]
    | none => if (lookupSM prev d).isSome then [⟨.removed, d, removedMsg d⟩] else []
  else if (lookupSM prev d).isSome then [⟨.removed, d, removedMsg d⟩] else []

/-- The `DomainInfo` value `ParseWHOIS` builds from a successful parser
result, in closed form: the conditional field copies collapse because the
zero value of each field coincides with the copied value on the guard's
complement (`parseDate "" = goZeroTime`). -/
def whoisInfo (dom : String) (r : WhoisRecord) : DomainInfo :=
  ⟨dom, r.registrarName, r.nameServers.getD [], parseDate r.createdDate,
   parseDate r.expirationDate, parseDate r.updatedDate, ""⟩

/-- The outcome `SendWebhook` returns for a present observation (the only
case in which the discord branch is safe), by sink kind. -/
def sendOutcomeSome (post : Webhook → Payload → Except String Nat)
    (wh : Webhook) (message : String) (i : DomainInfo) : SendOutcome :=
  if wh.type = "pagerduty" then
    deliverOutcome post wh (.pagerduty message "info" "domain-monitor" wh.url "trigger")
  else if wh.type = "teams" then
    deliverOutcome post wh (.teams message)
  else if wh.type = "discord" then
    deliverOutcome post wh (.discord message (discordDescription i) 3447003)
  else .unsupportedType wh.type

/-- Events the first loop contributes for one configuration entry. -/
def domEvents (o : Oracles) (prev : List (String × String)) (dom : Domain) : List Event :=
  match observeFull o dom.name with
  | none => []
  | some info =>
      match lookupSM prev dom.name with
      | none => [⟨.enabled, dom.name, enabledMsg dom.name⟩]
      | some previousHash =>
          if previousHash ≠ HashDomainInfo info then
            [⟨.changed, dom.name, changedMsg dom.name⟩]
          else []

/-- Deliveries the first loop attempts for one configuration entry. -/
def domDeliveries (o : Oracles) (config : Config) (prev : List (String × String))
    (dom : Domain) : List Delivery :=
  match observeFull o dom.name with
  | none => []
  | some info =>
      match lookupSM prev dom.name with
      | none =>
          (sendSeq o.post dom.name (enabledMsg dom.name) (some info)
            (dom.webhooks ++ config.webhooks)).1
      | some previousHash =>
          if previousHash ≠ HashDomainInfo info then
            (sendSeq o.post dom.name (changedMsg dom.name) (some info)
              (dom.webhooks ++ config.webhooks)).1
          else []

/-- Events the removed-domain loop contributes for one previous entry. -/
def remEvents (cur : List (String × String)) (entry : String × String) : List Event :=
  if (lookupSM cur entry.1).isSome then []
  else [⟨.removed, entry.1, removedMsg entry.1⟩]

/-- Deliveries the removed-domain loop attempts for one previous entry. -/
def remDeliveries (o : Oracles) (config : Config) (cur : List (String × String))
    (entry : String × String) : List Delivery :=
  if (lookupSM cur entry.1).isSome then []
  else (sendSeq o.post entry.1 (removedMsg entry.1) none (remSinks config entry.1)).1

/-- A teams sink, for concrete scenarios. -/
def whTeams : Webhook := ⟨"teams", "https://teams.example/hook"⟩

/-- A second teams sink, for concrete scenarios. -/
def whTeamsB : Webhook := ⟨"teams", "https://teams.example/hookB"⟩

/-- A discord sink, for concrete scenarios. -/
def whDiscord : Webhook := ⟨"discord", "https://discord.example/hook"⟩

/-- A sink of an unsupported kind, for concrete scenarios. -/
def whBogus : Webhook := ⟨"bogus", "https://bogus.example/hook"⟩

/-- An HTTP oracle that accepts every POST. -/
def postOK : Webhook → Payload → Except String Nat := fun _ _ => .ok 204

/-- A parser record with every optional field absent. -/
def wrEmpty : WhoisRecord := ⟨"", none, "", "", ""⟩

/-- Parser record listing the name servers in one order. -/
def wrNsBA : WhoisRecord :=
  ⟨"Example Registrar", some ["ns-b.example", "ns-a.example"], "", "", ""⟩

/-- The same observation with the name-server list in the other order. -/
def wrNsAB : WhoisRecord :=
  ⟨"Example Registrar", some ["ns-a.example", "ns-b.example"], "", "", ""⟩

/-- A WHOIS parser oracle returning the two name-server orderings for two
response texts. -/
def wparseNS : String → Except String WhoisRecord :=
  fun resp => if resp = "respBA" then .ok wrNsBA else .ok wrNsAB

/-- Parser record with a creation date in RFC 3339 `Z` form. -/
def wrDateT : WhoisRecord :=
  ⟨"Example Registrar", some ["ns-a.example"], "2024-03-05T06:07:08Z", "", ""⟩

/-- The same instant in space-separated form. -/
def wrDateSp : WhoisRecord :=
  ⟨"Example Registrar", some ["ns-a.example"], "2024-03-05 06:07:08", "", ""⟩

/-- An oracle for which every external fetch fails. -/
def oFailAll : Oracles :=
  ⟨fun _ => .error "whois: connection refused",
   fun _ => .error "whois-parser: malformed response",
   fun _ => .error "lookup: no such host",
   postOK⟩

/-- A configuration with no domains and no sinks. -/
def cfgIdle : Config := ⟨5, [], []⟩

/-- A load sequence that succeeds at tick 0 and fails afterwards. -/
def loadsFailLater : Nat → Except String Config :=
  fun k => if k = 0 then .ok cfgIdle else .error "reload failed"

/-- Configuration for the transition-completeness witness. -/
def cfgC2w : Config := ⟨5, [⟨"a.example", [whTeams]⟩], [whTeams]⟩

/-- Configuration whose single domain carries a discord sink. -/
def cfgC3 : Config := ⟨5, [⟨"gone.example", [whDiscord]⟩], []⟩

/-- Configuration whose single domain carries a discord then a teams
sink. -/
def cfgC4x : Config := ⟨5, [⟨"gone.example", [whDiscord, whTeams]⟩], []⟩

/-- Configuration whose single domain carries a teams sink, plus a global
teams sink. -/
def cfgC4w : Config := ⟨5, [⟨"gone.example", [whTeams]⟩], [whTeamsB]⟩

/-- Oracle observing `a.example`'s WHOIS text but failing its DNS
resolution; every other fetch fails at the WHOIS step. -/
def oC6a : Oracles :=
  ⟨fun n => if n = "a.example" then .ok "respA" else .error "whois down",
   fun _ => .ok wrEmpty,
   fun _ => .error "lookup: no such host",
   postOK⟩

/-- Oracle failing every WHOIS fetch (differs from `oC6a` only on
`a.example`). -/
def oC6b : Oracles :=
  ⟨fun _ => .error "whois down",
   fun _ => .ok wrEmpty,
   fun _ => .error "lookup: no such host",
   postOK⟩

/-- Two-domain configuration for the failure-isolation witness. -/
def cfgC6w : Config := ⟨5, [⟨"a.example", [whTeams]⟩, ⟨"b.example", [whTeams]⟩], []⟩

/-- Oracle under which `dup.example` is fully observed. -/
def oC10 : Oracles :=
  ⟨fun n => if n = "dup.example" then .ok "respDup" else .error "whois down",
   fun r => if r = "respDup" then .ok wrNsAB else .error "parse",
   fun n => if n = "dup.example" then .ok ["192.0.2.7"] else .error "lookup",
   postOK⟩

/-- The observation `oC10` yields for `dup.example`. -/
def infoC10 : DomainInfo :=
  ⟨"dup.example", "Example Registrar", ["ns-a.example", "ns-b.example"],
   goZeroTime, goZeroTime, goZeroTime, "192.0.2.7"⟩

/-- Configuration listing the same domain name twice. -/
def cfgC10 : Config := ⟨5, [⟨"dup.example", []⟩, ⟨"dup.example", []⟩], []⟩

/-- Empty-domain configuration whose global sink is discord. -/
def cfgC2x : Config := ⟨5, [], [whDiscord]⟩

/-- Single-domain configuration whose domain sink is discord. -/
def cfgC6x : Config := ⟨5, [⟨"x.example", [whDiscord]⟩], []⟩

/-- Oracle under which `x.example` is fully observed. -/
def oC6x : Oracles :=
  ⟨fun n => if n = "x.example" then .ok "respX" else .error "down",
   fun r => if r = "respX" then .ok wrEmpty else .error "parse",
   fun n => if n = "x.example" then .ok ["192.0.2.9"] else .error "lookup",
   postOK⟩

/-- The same oracle with `x.example`'s WHOIS fetch failing (it differs
from `oC6x` only there). -/
def oC6y : Oracles :=
  ⟨fun _ => .error "down",
   fun r => if r = "respX" then .ok wrEmpty else .error "parse",
   fun n => if n = "x.example" then .ok ["192.0.2.9"] else .error "lookup",
   postOK⟩

/-! Sanity checks of the embedded standard-library models against
published reference values (FIPS 180-4 test vector). -/

set_option maxRecDepth 40000 in
/-- The SHA-256 model reproduces the standard `abc` test vector. -/
theorem sha256_model_test_vector :
    bytesToHex (sha256Bytes (strBytes "abc")) =
      "ba7816bf8f01cfea414140de5dae2223b00361a396177a9cb410ff61f20015ad" := by
  decide

/-- The empty string parses under none of the six layouts, so `parseDate`
returns the zero time on it. -/
theorem parseDate_empty : parseDate "" = goZeroTime := by decide

/-! General lemmas about the embedded operations. -/

/-- The loop of `parseDate` returns the first successful parse of the
layout list, in order, with the zero time as fallback. -/
theorem parseDateGo_eq_findSome (s : String) :
    ∀ fs : List String,
      parseDateGo fs s = ((fs.findSome? (fun f => goTimeParse f s)).getD goZeroTime)
  | [] => rfl
  | f :: rest => by
      unfold parseDateGo
      cases h : goTimeParse f s with
      | none => rw [parseDateGo_eq_findSome s rest]; simp [List.findSome?_cons, h]
      | some t => simp [List.findSome?_cons, h]

/-- A `findSome?` over a list on which the function is constantly `none`
yields `none`. -/
theorem findSome?_none_of_all {α β : Type} (f : α → Option β) :
    ∀ l : List α, (∀ a ∈ l, f a = none) → l.findSome? f = none
  | [], _ => rfl
  | a :: rest, h => by
      have ha := h a (by simp)
      rw [List.findSome?_cons, ha]
      exact findSome?_none_of_all f rest (fun b hb => h b (by simp [hb]))

/-- A successful parser result makes `ParseWHOIS` succeed with the
closed-form observation `whoisInfo`. -/
theorem parseWHOIS_ok (wparse : String → Except String WhoisRecord)
    (dom resp : String) (r : WhoisRecord) (h : wparse resp = .ok r) :
    ParseWHOIS wparse dom resp = .ok (whoisInfo dom r) := by
  rcases r with ⟨reg, ns, cd, ed, ud⟩
  unfold ParseWHOIS whoisInfo
  rw [h]
  by_cases hreg : reg = "" <;> rcases ns with _ | ns <;>
    by_cases hcd : cd = "" <;> by_cases hed : ed = "" <;> by_cases hud : ud = "" <;>
      simp [hreg, hcd, hed, hud, parseDate_empty]

/-! C8: parseDate tries the formats in order, first success wins, zero
time as the no-error fallback. -/

/-- C8.  For every timestamp string, `parseDate` tries the six accepted
layouts in their fixed source order and returns the result of the first
layout that parses; when no layout parses it returns the zero-time
sentinel instead of an error, so every input normalizes. -/
theorem c8_first_format_wins :
    (∀ s : String,
        parseDate s = ((dateLayouts.findSome? (fun f => goTimeParse f s)).getD goZeroTime)) ∧
    (∀ s : String, (∀ f ∈ dateLayouts, goTimeParse f s = none) → parseDate s = goZeroTime) := by
  constructor
  · intro s
    exact parseDateGo_eq_findSome s dateLayouts
  · intro s h
    unfold parseDate
    rw [parseDateGo_eq_findSome s dateLayouts, findSome?_none_of_all _ _ h]
    rfl

/-- C8 witness: a string no layout accepts normalizes to the zero time. -/
theorem c8_first_format_wins_witness : parseDate "last week sometime" = goZeroTime :=
  c8_first_format_wins.2 "last week sometime" (by decide)

/-! C9: the interval floor of LoadConfig. -/

/-- C9.  A successfully decoded configuration is returned with its
interval clamped up to the floor of 5 — an interval below 5 is silently
corrected to 5 with no error, an interval of 5 or more is returned
unchanged, and the rest of the configuration is untouched. -/
theorem c9_interval_floor (cfg : Config) :
    ∃ cfg2, LoadConfig (.ok cfg) = .ok cfg2 ∧ 5 ≤ cfg2.interval ∧
      cfg2.domains = cfg.domains ∧ cfg2.webhooks = cfg.webhooks ∧
      (cfg.interval < 5 → cfg2.interval = 5) ∧ (5 ≤ cfg.interval → cfg2 = cfg) := by
  by_cases h : cfg.interval < 5
  · refine ⟨{ cfg with interval := 5 }, ?_, ?_, rfl, rfl, fun _ => rfl, fun h2 => absurd h (by omega)⟩
    · simp [LoadConfig, h]
    · simp
  · refine ⟨cfg, ?_, by omega, rfl, rfl, fun h2 => absurd h2 h, fun _ => rfl⟩
    simp [LoadConfig, h]

/-- C9 witness: a configured interval of 1 is corrected to 5 without an
error. -/
theorem c9_interval_floor_witness :
    ∃ cfg2, LoadConfig (.ok (⟨1, [], []⟩ : Config)) = .ok cfg2 ∧ 5 ≤ cfg2.interval ∧
      cfg2.domains = (⟨1, [], []⟩ : Config).domains ∧
      cfg2.webhooks = (⟨1, [], []⟩ : Config).webhooks ∧
      ((⟨1, [], []⟩ : Config).interval < 5 → cfg2.interval = 5) ∧
      (5 ≤ (⟨1, [], []⟩ : Config).interval → cfg2 = (⟨1, [], []⟩ : Config)) :=
  c9_interval_floor ⟨1, [], []⟩

/-! C5: the reload-failure policy of the polling loop. -/

/-- C5 counterexample: with a load sequence that succeeds at tick 0 and
fails at tick 1, the loop stops at cycle 1 — a later reload failure is
fatal, not a per-cycle skip after which the loop would still be
running. -/
theorem c5_counterexample :
    loadsFailLater 0 = .ok cfgIdle ∧
    loadsFailLater 1 = .error "reload failed" ∧
    mainLoop loadsFailLater oFailAll 3 0 [] = .stopped 1 "reload failed" := by
  refine ⟨rfl, rfl, ?_⟩
  decide

/-- C5 amended: the polling loop stops on every configuration-load
failure — on the first load and equally on any later reload tick. -/
theorem c5_load_failure_fatal (loads : Nat → Except String Config) (o : Oracles)
    (fuel k : Nat) (st : List (String × String)) (e : String)
    (h : loads k = .error e) :
    mainLoop loads o (fuel + 1) k st = .stopped k e := by
  unfold mainLoop
  rw [h]

/-- C5 witness: the fatality of a tick-1 reload failure, through the
amended statement at the concrete failing load sequence. -/
theorem c5_load_failure_fatal_witness :
    mainLoop loadsFailLater oFailAll 1 1 [] = .stopped 1 "reload failed" :=
  c5_load_failure_fatal loadsFailLater oFailAll 0 1 [] "reload failed" rfl

/-! C3: dispatching a Removed event to a discord sink. -/

/-- C3.  The discord branch of `SendWebhook` dereferences the observation
unconditionally, so the nil observation a `Removed` event carries makes
the call panic instead of degrading the description to summary-only; a
whole cycle that reaches such a dispatch never returns (a concrete run
with one vanished domain carrying a discord sink crashes). -/
theorem c3_removed_discord_panics :
    (∀ (post : Webhook → Payload → Except String Nat) (url message : String),
        SendWebhook post ⟨"discord", url⟩ message none = SendResult.panicked) ∧
    (MonitorDomains oFailAll cfgC3 [("gone.example", "oldhash")]).result = none := by
  constructor
  · intro post url message
    rfl
  · decide

/-! C1: fingerprint stability. -/

set_option maxRecDepth 100000 in
/-- C1 counterexample: two parser results that differ only in the order
of the name-server list produce observations whose digests differ —
`HashDomainInfo` encodes the list in the order `ParseWHOIS` received it,
without sorting. -/
theorem c1_ns_order_changes_digest :
    ∃ i1 i2, ParseWHOIS wparseNS "x.example" "respBA" = .ok i1 ∧
      ParseWHOIS wparseNS "x.example" "respAB" = .ok i2 ∧
      i1.nameServers = ["ns-b.example", "ns-a.example"] ∧
      i2.nameServers = ["ns-a.example", "ns-b.example"] ∧
      i1.domain = i2.domain ∧ i1.registrarTag = i2.registrarTag ∧
      i1.creationDate = i2.creationDate ∧ i1.expiryDate = i2.expiryDate ∧
      i1.updatedDate = i2.updatedDate ∧ i1.ipAddress = i2.ipAddress ∧
      HashDomainInfo i1 ≠ HashDomainInfo i2 := by
  refine ⟨whoisInfo "x.example" wrNsBA, whoisInfo "x.example" wrNsAB,
    parseWHOIS_ok _ _ _ _ rfl, parseWHOIS_ok _ _ _ _ rfl,
    rfl, rfl, rfl, rfl, rfl, rfl, rfl, ?_⟩
  decide

/-- C1 amended: fingerprinting through `ParseWHOIS`/`parseDate` followed
by `HashDomainInfo` is insensitive to the textual format of timestamps
that normalize to the same parsed time value, but it is sensitive to the
order of the name-server list (the list is not sorted before encoding):
only observations whose normalized fields — including the name-server
order — agree are guaranteed equal digests. -/
theorem c1_digest_stability (p1 p2 : String → Except String WhoisRecord)
    (dom resp1 resp2 ip : String) (r1 r2 : WhoisRecord)
    (hp1 : p1 resp1 = .ok r1) (hp2 : p2 resp2 = .ok r2)
    (hreg : r1.registrarName = r2.registrarName)
    (hns : r1.nameServers = r2.nameServers)
    (hc : parseDate r1.createdDate = parseDate r2.createdDate)
    (he : parseDate r1.expirationDate = parseDate r2.expirationDate)
    (hu : parseDate r1.updatedDate = parseDate r2.updatedDate) :
    ∃ i1 i2, ParseWHOIS p1 dom resp1 = .ok i1 ∧ ParseWHOIS p2 dom resp2 = .ok i2 ∧
      HashDomainInfo { i1 with ipAddress := ip } =
        HashDomainInfo { i2 with ipAddress := ip } := by
  refine ⟨whoisInfo dom r1, whoisInfo dom r2,
    parseWHOIS_ok _ _ _ _ hp1, parseWHOIS_ok _ _ _ _ hp2, ?_⟩
  unfold whoisInfo
  rw [hreg, hns, hc, he, hu]

/-- C1 witness: the same instant written in RFC 3339 `Z` form and in
space-separated form digests identically once normalized. -/
theorem c1_digest_stability_witness :
    ∃ i1 i2,
      ParseWHOIS (fun _ => .ok wrDateT) "x.example" "resp1" = .ok i1 ∧
      ParseWHOIS (fun _ => .ok wrDateSp) "x.example" "resp2" = .ok i2 ∧
      HashDomainInfo { i1 with ipAddress := "192.0.2.7" } =
        HashDomainInfo { i2 with ipAddress := "192.0.2.7" } :=
  c1_digest_stability (fun _ => .ok wrDateT) (fun _ => .ok wrDateSp)
    "x.example" "resp1" "resp2" "192.0.2.7" wrDateT wrDateSp rfl rfl
    rfl rfl (by decide) (by decide) (by decide)

/-! Lemmas about the dispatch loops and the state map. -/

/-- With a present observation `SendWebhook` never panics: each branch
returns the outcome `sendOutcomeSome` describes. -/
theorem sendWebhook_some (post : Webhook → Payload → Except String Nat)
    (wh : Webhook) (message : String) (i : DomainInfo) :
    SendWebhook post wh message (some i) = .done (sendOutcomeSome post wh message i) := by
  unfold SendWebhook sendOutcomeSome
  split_ifs <;> rfl

/-- With a present observation the sink loop attempts every sink in
order and never panics. -/
theorem sendSeq_some (post : Webhook → Payload → Except String Nat)
    (dname message : String) (i : DomainInfo) :
    ∀ whs : List Webhook,
      sendSeq post dname message (some i) whs =
        (whs.map (fun wh => ⟨dname, wh, message, sendOutcomeSome post wh message i⟩), false)
  | [] => rfl
  | wh :: rest => by
      unfold sendSeq
      rw [sendWebhook_some, sendSeq_some post dname message i rest]
      rfl

/-- Every delivery the sink loop records carries the loop's domain name
and message. -/
theorem sendSeq_mem (post : Webhook → Payload → Except String Nat)
    (dname message : String) (info : Option DomainInfo) :
    ∀ (whs : List Webhook) (dl : Delivery), dl ∈ (sendSeq post dname message info whs).1 →
      dl.domain = dname ∧ dl.message = message
  | [], dl, h => absurd h (by simp [sendSeq])
  | wh :: rest, dl, h => by
      cases hsw : SendWebhook post wh message info with
      | panicked => rw [sendSeq, hsw] at h; simp at h
      | done outcome =>
          rw [sendSeq, hsw] at h
          simp only [List.mem_cons] at h
          rcases h with h | h
          · subst h; exact ⟨rfl, rfl⟩
          · exact sendSeq_mem post dname message info rest dl h

/-- A sink loop that did not panic attempted exactly the given sinks, in
order. -/
theorem sendSeq_no_panic_map (post : Webhook → Payload → Except String Nat)
    (dname message : String) (info : Option DomainInfo) :
    ∀ whs : List Webhook, (sendSeq post dname message info whs).2 = false →
      (sendSeq post dname message info whs).1.map Delivery.webhook = whs
  | [], _ => rfl
  | wh :: rest, h => by
      cases hsw : SendWebhook post wh message info with
      | panicked => rw [sendSeq, hsw] at h; simp at h
      | done outcome =>
          rw [sendSeq, hsw] at h ⊢
          simp only [List.map_cons]
          exact congrArg (_ :: ·) (sendSeq_no_panic_map post dname message info rest h)

/-- Looking up the key just inserted yields the inserted value. -/
theorem lookup_insert_self (k v : String) :
    ∀ m : List (String × String), lookupSM (insertSM m k v) k = some v
  | [] => by simp [insertSM, lookupSM]
  | p :: rest => by
      by_cases h : p.1 = k
      · simp [insertSM, h, lookupSM]
      · simp [insertSM, h, lookupSM, lookup_insert_self k v rest]

/-- Inserting one key leaves lookups of other keys unchanged. -/
theorem lookup_insert_ne (k v n : String) (hkn : k ≠ n) :
    ∀ m : List (String × String), lookupSM (insertSM m k v) n = lookupSM m n
  | [] => by simp [insertSM, lookupSM, hkn]
  | p :: rest => by
      rw [insertSM]
      by_cases h : p.1 = k
      · rw [if_pos h]
        have hpn : ¬p.1 = n := fun hh => hkn (by rw [← h]; exact hh)
        simp only [lookupSM]
        rw [if_neg (fun hh : k = n => hkn hh), if_neg hpn]
      · rw [if_neg h]
        simp only [lookupSM]
        by_cases hpn : p.1 = n
        · rw [if_pos hpn, if_pos hpn]
        · rw [if_neg hpn, if_neg hpn]
          exact lookup_insert_ne k v n hkn rest

/-- What the first loop's `currentStates` map holds at a name: the
fingerprint of that name's observation when some configuration entry
bears the name and the observation succeeded, else whatever the
accumulator held. -/
theorem lookup_statesAfter (o : Oracles) (n : String) :
    ∀ (doms : List Domain) (cur : List (String × String)),
      lookupSM (statesAfter o doms cur) n =
        ((if doms.any (fun dm => decide (dm.name = n)) then
            (observeFull o n).map HashDomainInfo else none).or (lookupSM cur n))
  | [], cur => by simp [statesAfter]
  | dom :: rest, cur => by
      by_cases hdn : dom.name = n
      · cases hobs : observeFull o dom.name with
        | none =>
            have hno : observeFull o n = none := hdn ▸ hobs
            rw [statesAfter, hobs, lookup_statesAfter o n rest cur]
            by_cases hrest : rest.any (fun dm => decide (dm.name = n)) <;>
              simp [List.any_cons, hdn, hno, hrest]
        | some info =>
            have hsome : observeFull o n = some info := hdn ▸ hobs
            rw [statesAfter, hobs, lookup_statesAfter o n rest _, hdn,
              lookup_insert_self n (HashDomainInfo info) cur]
            by_cases hrest : rest.any (fun dm => decide (dm.name = n)) <;>
              simp [List.any_cons, hdn, hsome, hrest]
      · cases hobs : observeFull o dom.name with
        | none =>
            rw [statesAfter, hobs, lookup_statesAfter o n rest cur]
            simp [List.any_cons, hdn]
        | some info =>
            rw [statesAfter, hobs, lookup_statesAfter o n rest _,
              lookup_insert_ne dom.name (HashDomainInfo info) n hdn cur]
            simp [List.any_cons, hdn]

/-- The first loop of `MonitorDomains` in closed form: it never panics,
emits the per-entry events and deliveries in configuration order, and
builds the `currentStates` map of the successful observations. -/
theorem runDomains_eq (o : Oracles) (config : Config) (prev : List (String × String)) :
    ∀ (doms : List Domain) (cur : List (String × String)),
      runDomains o config prev doms cur =
        ⟨doms.flatMap (domEvents o prev),
         doms.flatMap (domDeliveries o config prev),
         statesAfter o doms cur, false⟩
  | [], cur => by simp [runDomains, statesAfter]
  | dom :: rest, cur => by
      rw [runDomains]
      cases hobs : observeFull o dom.name with
      | none =>
          simp [runDomains_eq o config prev rest, domEvents, domDeliveries, statesAfter, hobs]
      | some info =>
          cases hlk : lookupSM prev dom.name with
          | none =>
              simp [sendSeq_some, runDomains_eq o config prev rest, domEvents,
                domDeliveries, statesAfter, hobs, hlk]
          | some previousHash =>
              by_cases hne : previousHash = HashDomainInfo info <;>
                simp [sendSeq_some, runDomains_eq o config prev rest, domEvents,
                  domDeliveries, statesAfter, hobs, hlk, hne]

/-- The removed-domain loop in closed form, when it did not panic. -/
theorem runRemoved_eq (o : Oracles) (config : Config) (cur : List (String × String)) :
    ∀ lst : List (String × String), (runRemoved o config cur lst).panicked = false →
      runRemoved o config cur lst =
        ⟨lst.flatMap (remEvents cur), lst.flatMap (remDeliveries o config cur), false⟩
  | [], _ => by simp [runRemoved]
  | entry :: rest, h => by
      rw [runRemoved] at h ⊢
      by_cases hpres : (lookupSM cur entry.1).isSome
      · rw [if_pos hpres] at h ⊢
        rw [runRemoved_eq o config cur rest h]
        simp [remEvents, remDeliveries, hpres]
      · rw [if_neg hpres] at h ⊢
        cases hpan : (sendSeq o.post entry.1 (removedMsg entry.1) none (remSinks config entry.1)).2 with
        | true => simp [hpan] at h
        | false =>
            simp only [hpan] at h ⊢
            simp only [Bool.false_eq_true, if_false] at h ⊢
            rw [runRemoved_eq o config cur rest h]
            simp [remEvents, remDeliveries, hpres]

/-- In a removed-domain loop that did not panic, the sink loop of each
dispatched entry did not panic either. -/
theorem runRemoved_entry_no_panic (o : Oracles) (config : Config)
    (cur : List (String × String)) :
    ∀ lst : List (String × String), (runRemoved o config cur lst).panicked = false →
      ∀ e ∈ lst, (lookupSM cur e.1).isSome = false →
        (sendSeq o.post e.1 (removedMsg e.1) none (remSinks config e.1)).2 = false
  | [], _, e, he, _ => absurd he (by simp)
  | entry :: rest, h, e, he, hgone => by
      rw [runRemoved] at h
      by_cases hpres : (lookupSM cur entry.1).isSome
      · rw [if_pos hpres] at h
        rcases List.mem_cons.mp he with rfl | hmem
        · rw [hgone] at hpres; cases hpres
        · exact runRemoved_entry_no_panic o config cur rest h e hmem hgone
      · rw [if_neg hpres] at h
        cases hpan : (sendSeq o.post entry.1 (removedMsg entry.1) none (remSinks config entry.1)).2 with
        | true => simp [hpan] at h
        | false =>
            simp only [hpan, Bool.false_eq_true, if_false] at h
            rcases List.mem_cons.mp he with rfl | hmem
            · exact hpan
            · exact runRemoved_entry_no_panic o config cur rest h e hmem hgone

/-- A `MonitorDomains` call that returned decomposes into the two loops'
closed forms: events and deliveries of the configured domains in order,
then those of the removed domains, and the freshly built state map. -/
theorem monitorDomains_eq (o : Oracles) (config : Config) (prev : List (String × String))
    (hok : (MonitorDomains o config prev).result.isSome) :
    (runRemoved o config (statesAfter o config.domains []) prev).panicked = false ∧
    MonitorDomains o config prev =
      ⟨config.domains.flatMap (domEvents o prev) ++
         prev.flatMap (remEvents (statesAfter o config.domains [])),
       config.domains.flatMap (domDeliveries o config prev) ++
         prev.flatMap (remDeliveries o config (statesAfter o config.domains [])),
       some (statesAfter o config.domains [])⟩ := by
  cases hpan : (runRemoved o config (statesAfter o config.domains []) prev).panicked with
  | true =>
      exfalso
      unfold MonitorDomains at hok
      rw [runDomains_eq o config prev config.domains []] at hok
      simp [hpan] at hok
  | false =>
      refine ⟨rfl, ?_⟩
      unfold MonitorDomains
      rw [runDomains_eq o config prev config.domains []]
      simp [hpan, runRemoved_eq o config (statesAfter o config.domains []) prev hpan]

/-- Filtering the flat concatenation of per-entry event lists by a domain
name keeps exactly the contributions of entries bearing that name. -/
theorem eventsFor_flatMap {α : Type} (n : String) (key : α → String) (f : α → List Event)
    (hk : ∀ a, ∀ e ∈ f a, e.domain = key a) :
    ∀ l : List α,
      eventsFor n (l.flatMap f) = (l.filter (fun a => decide (key a = n))).flatMap f
  | [] => rfl
  | a :: rest => by
      unfold eventsFor
      rw [List.flatMap_cons, List.filter_append]
      by_cases hka : key a = n
      · rw [List.filter_cons_of_pos (by simp [hka]), List.flatMap_cons]
        have h1 : (f a).filter (fun e => decide (e.domain = n)) = f a :=
          List.filter_eq_self.mpr (fun e he => by simp [hk a e he, hka])
        rw [h1]
        exact congrArg (f a ++ ·) (eventsFor_flatMap n key f hk rest)
      · rw [List.filter_cons_of_neg (by simp [hka])]
        have h1 : (f a).filter (fun e => decide (e.domain = n)) = [] :=
          List.filter_eq_nil_iff.mpr (fun e he => by simp [hk a e he, hka])
        rw [h1]
        exact eventsFor_flatMap n key f hk rest

/-- Filtering the flat concatenation of per-entry delivery lists by a
domain name keeps exactly the contributions of entries bearing it. -/
theorem deliveriesFor_flatMap {α : Type} (n : String) (key : α → String)
    (f : α → List Delivery) (hk : ∀ a, ∀ dl ∈ f a, dl.domain = key a) :
    ∀ l : List α,
      deliveriesFor n (l.flatMap f) = (l.filter (fun a => decide (key a = n))).flatMap f
  | [] => rfl
  | a :: rest => by
      unfold deliveriesFor
      rw [List.flatMap_cons, List.filter_append]
      by_cases hka : key a = n
      · rw [List.filter_cons_of_pos (by simp [hka]), List.flatMap_cons]
        have h1 : (f a).filter (fun dl => decide (dl.domain = n)) = f a :=
          List.filter_eq_self.mpr (fun dl hdl => by simp [hk a dl hdl, hka])
        rw [h1]
        exact congrArg (f a ++ ·) (deliveriesFor_flatMap n key f hk rest)
      · rw [List.filter_cons_of_neg (by simp [hka])]
        have h1 : (f a).filter (fun dl => decide (dl.domain = n)) = [] :=
          List.filter_eq_nil_iff.mpr (fun dl hdl => by simp [hk a dl hdl, hka])
        rw [h1]
        exact deliveriesFor_flatMap n key f hk rest

/-- Events a configuration entry contributes concern its own name. -/
theorem domEvents_domain (o : Oracles) (prev : List (String × String)) (dom : Domain) :
    ∀ e ∈ domEvents o prev dom, e.domain = dom.name := by
  intro e he
  unfold domEvents at he
  cases hobs : observeFull o dom.name with
  | none => rw [hobs] at he; cases he
  | some info =>
      rw [hobs] at he
      cases hlk : lookupSM prev dom.name with
      | none =>
          rw [hlk] at he
          simp at he
          rw [he]
      | some previousHash =>
          rw [hlk] at he
          by_cases hne : previousHash ≠ HashDomainInfo info
          · simp [hne] at he
            rw [he]
          · simp [hne] at he

/-- Deliveries a configuration entry contributes concern its own name. -/
theorem domDeliveries_domain (o : Oracles) (config : Config)
    (prev : List (String × String)) (dom : Domain) :
    ∀ dl ∈ domDeliveries o config prev dom, dl.domain = dom.name := by
  intro dl hdl
  unfold domDeliveries at hdl
  cases hobs : observeFull o dom.name with
  | none => rw [hobs] at hdl; cases hdl
  | some info =>
      rw [hobs] at hdl
      cases hlk : lookupSM prev dom.name with
      | none => exact (sendSeq_mem _ _ _ _ _ dl (by rw [hlk] at hdl; exact hdl)).1
      | some previousHash =>
          rw [hlk] at hdl
          by_cases hne : previousHash ≠ HashDomainInfo info
          · simp only [ne_eq, hne, not_false_eq_true, if_true] at hdl
            exact (sendSeq_mem _ _ _ _ _ dl hdl).1
          · simp [hne] at hdl

/-- Events a previous entry contributes concern its own key. -/
theorem remEvents_domain (cur : List (String × String)) (entry : String × String) :
    ∀ e ∈ remEvents cur entry, e.domain = entry.1 := by
  intro e he
  unfold remEvents at he
  by_cases hpres : (lookupSM cur entry.1).isSome <;> simp [hpres] at he
  rw [he]

/-- Deliveries a previous entry contributes concern its own key. -/
theorem remDeliveries_domain (o : Oracles) (config : Config)
    (cur : List (String × String)) (entry : String × String) :
    ∀ dl ∈ remDeliveries o config cur entry, dl.domain = entry.1 := by
  intro dl hdl
  unfold remDeliveries at hdl
  by_cases hpres : (lookupSM cur entry.1).isSome
  · rw [if_pos hpres] at hdl
    cases hdl
  · rw [if_neg hpres] at hdl
    exact (sendSeq_mem _ _ _ _ _ dl hdl).1

/-- Filtering a list by one key under key-nodup yields nothing or a
single element bearing the key. -/
theorem filter_nodup_key {α : Type} (key : α → String) (d : String) :
    ∀ l : List α, (l.map key).Nodup →
      l.filter (fun a => decide (key a = d)) = [] ∨
      ∃ a0, key a0 = d ∧ l.filter (fun a => decide (key a = d)) = [a0]
  | [], _ => Or.inl rfl
  | a :: rest, hnd => by
      rw [List.map_cons] at hnd
      have hnd2 := List.nodup_cons.mp hnd
      by_cases hka : key a = d
      · right
        refine ⟨a, hka, ?_⟩
        rw [List.filter_cons_of_pos (by simp [hka])]
        have hrest : rest.filter (fun b => decide (key b = d)) = [] := by
          refine List.filter_eq_nil_iff.mpr (fun b hb => ?_)
          simp only [decide_eq_true_eq]
          intro hbd
          exact hnd2.1 (List.mem_map.mpr ⟨b, hb, hbd.trans hka.symm⟩)
        rw [hrest]
      · rw [List.filter_cons_of_neg (by simp [hka])]
        exact filter_nodup_key key d rest hnd2.2

/-- Under key-nodup, filtering a previous-state list by a key yields the
entry its lookup finds (and nothing else). -/
theorem lookup_filter_nodup (d : String) :
    ∀ m : List (String × String), (m.map Prod.fst).Nodup →
      m.filter (fun e => decide (e.1 = d)) =
        (match lookupSM m d with
         | none => []
         | some h => [(d, h)])
  | [], _ => rfl
  | p :: rest, hnd => by
      rw [List.map_cons] at hnd
      have hnd2 := List.nodup_cons.mp hnd
      by_cases hp : p.1 = d
      · rw [List.filter_cons_of_pos (by simp [hp])]
        have hrest : rest.filter (fun e => decide (e.1 = d)) = [] := by
          refine List.filter_eq_nil_iff.mpr (fun e he => ?_)
          simp only [decide_eq_true_eq]
          intro hed
          exact hnd2.1 (List.mem_map.mpr ⟨e, he, hed.trans hp.symm⟩)
        rw [hrest, lookupSM, if_pos hp]
        have : p = (d, p.2) := by
          rcases p with ⟨p1, p2⟩
          simp at hp
          rw [hp]
        rw [this]
      · rw [List.filter_cons_of_neg (by simp [hp]), lookupSM, if_neg hp]
        exact lookup_filter_nodup d rest hnd2.2

/-- Filtering events by domain distributes over concatenation. -/
theorem eventsFor_append (n : String) (l1 l2 : List Event) :
    eventsFor n (l1 ++ l2) = eventsFor n l1 ++ eventsFor n l2 :=
  List.filter_append _ _

/-- Filtering deliveries by domain distributes over concatenation. -/
theorem deliveriesFor_append (n : String) (l1 l2 : List Delivery) :
    deliveriesFor n (l1 ++ l2) = deliveriesFor n l1 ++ deliveriesFor n l2 :=
  List.filter_append _ _

/-- A successful lookup names an entry of the list. -/
theorem lookupSM_mem (d h : String) :
    ∀ m : List (String × String), lookupSM m d = some h → (d, h) ∈ m
  | [], hl => by cases hl
  | p :: rest, hl => by
      rw [lookupSM] at hl
      by_cases hp : p.1 = d
      · rw [if_pos hp] at hl
        have hph : p.2 = h := by injection hl
        have : p = (d, h) := by
          rcases p with ⟨p1, p2⟩
          simp only at hp hph
          rw [hp, hph]
        rw [← this]
        exact List.mem_cons_self p rest
      · rw [if_neg hp] at hl
        exact List.mem_cons_of_mem p (lookupSM_mem d h rest hl)

/-- Every event of the removed-domain loop is a `Removed` event. -/
theorem remEvents_kind (cur : List (String × String)) (entry : String × String) :
    ∀ e ∈ remEvents cur entry, e.kind = EventKind.removed := by
  intro e he
  unfold remEvents at he
  by_cases hpres : (lookupSM cur entry.1).isSome <;> simp [hpres] at he
  rw [he]

/-! C2: transition completeness of one cycle. -/

/-- C2 counterexample: with an emptied configuration whose global sink is
discord and two previously monitored domains, the first `Removed`
dispatch panics (C3), so the second vanished domain — in `keys(P)` and
not observed — receives no classified outcome at all, while the
specified classification demands its `Removed` event: a domain is
skipped. -/
theorem c2_skipped_domain :
    eventsFor "y.example"
        (MonitorDomains oFailAll cfgC2x [("x.example", "hx"), ("y.example", "hy")]).events = [] ∧
    expectedEventsFor oFailAll cfgC2x [("x.example", "hx"), ("y.example", "hy")] "y.example" =
      [⟨EventKind.removed, "y.example", removedMsg "y.example"⟩] := by
  constructor
  · decide
  · decide

/-- C2 (amended).  For a duplicate-free configuration and previous map, a cycle
that completes classifies every domain of the union exactly as specified:
the events a domain receives are precisely `Enabled` when it is observed
and new, `Changed` when observed with a differing fingerprint, nothing
when observed unchanged, and `Removed` when it was in the previous map
but is not observed this cycle — one classified outcome per domain, none
skipped, none doubled. -/
theorem c2_transition_completeness (o : Oracles) (config : Config)
    (prev : List (String × String)) (d : String)
    (hnodup : (config.domains.map Domain.name).Nodup)
    (hprev : (prev.map Prod.fst).Nodup)
    (hok : (MonitorDomains o config prev).result.isSome) :
    eventsFor d (MonitorDomains o config prev).events = expectedEventsFor o config prev d := by
  obtain ⟨hpan, heq⟩ := monitorDomains_eq o config prev hok
  have hev : (MonitorDomains o config prev).events =
      config.domains.flatMap (domEvents o prev) ++
        prev.flatMap (remEvents (statesAfter o config.domains [])) := by rw [heq]
  have hcur : lookupSM (statesAfter o config.domains []) d =
      (if config.domains.any (fun dm => decide (dm.name = d)) then
        (observeFull o d).map HashDomainInfo else none) := by
    rw [lookup_statesAfter o d config.domains []]
    simp [lookupSM]
  rw [hev, eventsFor_append,
    eventsFor_flatMap d Domain.name (domEvents o prev) (domEvents_domain o prev) config.domains,
    eventsFor_flatMap d Prod.fst (remEvents (statesAfter o config.domains []))
      (remEvents_domain (statesAfter o config.domains [])) prev,
    lookup_filter_nodup d prev hprev]
  rcases filter_nodup_key Domain.name d config.domains hnodup with hfil | ⟨dom0, hname, hfil⟩
  · have hany : config.domains.any (fun dm => decide (dm.name = d)) = false := by
      by_contra hc
      rw [Bool.not_eq_false] at hc
      obtain ⟨x, hx, hdx⟩ := List.any_eq_true.mp hc
      have hxf : x ∈ config.domains.filter (fun dm => decide (dm.name = d)) :=
        List.mem_filter.mpr ⟨hx, hdx⟩
      rw [hfil] at hxf
      cases hxf
    rw [hfil]
    cases hlk : lookupSM prev d with
    | none => simp [expectedEventsFor, hany, hlk]
    | some h => simp [expectedEventsFor, hany, hlk, remEvents, hcur]
  · have hany : config.domains.any (fun dm => decide (dm.name = d)) = true := by
      have hmem : dom0 ∈ config.domains.filter (fun dm => decide (dm.name = d)) := by
        rw [hfil]
        exact List.mem_singleton.mpr rfl
      obtain ⟨hin, hdx⟩ := List.mem_filter.mp hmem
      exact List.any_eq_true.mpr ⟨dom0, hin, hdx⟩
    rw [hfil]
    cases hobs : observeFull o d with
    | some info =>
        cases hlk : lookupSM prev d with
        | none =>
            simp [expectedEventsFor, hany, hobs, hlk, domEvents, hname, remEvents, hcur]
        | some h =>
            by_cases hne : h = HashDomainInfo info <;>
              simp [expectedEventsFor, hany, hobs, hlk, domEvents, hname, remEvents, hcur, hne]
    | none =>
        cases hlk : lookupSM prev d with
        | none => simp [expectedEventsFor, hany, hobs, hlk, domEvents, hname, remEvents, hcur]
        | some h => simp [expectedEventsFor, hany, hobs, hlk, domEvents, hname, remEvents, hcur]

/-- C2 witness: a cycle with one failing configured domain and one
vanished previous domain classifies the latter as `Removed`, matching the
specification's classification. -/
theorem c2_transition_completeness_witness :
    eventsFor "b.example" (MonitorDomains oFailAll cfgC2w [("b.example", "oldhash")]).events =
      expectedEventsFor oFailAll cfgC2w [("b.example", "oldhash")] "b.example" :=
  c2_transition_completeness oFailAll cfgC2w [("b.example", "oldhash")] "b.example"
    (by decide) (by decide) (by decide)

/-! C7: the returned state map. -/

/-- C7.  A cycle that completes returns the freshly built map
`statesAfter` — a value constructed from the empty map and the cycle's
own observations only, independent of the previous map, whose entries are
exactly the configured domains whose full fetch succeeded, each bound to
its fingerprint. -/
theorem c7_next_states (o : Oracles) (config : Config) (prev : List (String × String))
    (d : String) (hok : (MonitorDomains o config prev).result.isSome) :
    (MonitorDomains o config prev).result = some (statesAfter o config.domains []) ∧
    lookupSM (statesAfter o config.domains []) d =
      (if config.domains.any (fun dm => decide (dm.name = d)) then
        (observeFull o d).map HashDomainInfo else none) := by
  obtain ⟨hpan, heq⟩ := monitorDomains_eq o config prev hok
  constructor
  · rw [heq]
  · rw [lookup_statesAfter o d config.domains []]
    simp [lookupSM]

/-- C7 witness: the concrete all-fetches-fail cycle returns the map built
from no observation, with an empty lookup for the vanished domain. -/
theorem c7_next_states_witness :
    (MonitorDomains oFailAll cfgC2w [("b.example", "oldhash")]).result =
      some (statesAfter oFailAll cfgC2w.domains []) ∧
    lookupSM (statesAfter oFailAll cfgC2w.domains []) "b.example" =
      (if cfgC2w.domains.any (fun dm => decide (dm.name = "b.example")) then
        (observeFull oFailAll "b.example").map HashDomainInfo else none) :=
  c7_next_states oFailAll cfgC2w [("b.example", "oldhash")] "b.example" (by decide)

/-! C6: failure isolation across sinks and across domains. -/

set_option maxRecDepth 400000 in
/-- C6 counterexample: under two oracles that differ only in
`x.example`'s WHOIS fetch, the bystander `y.example`'s events change —
when `x.example`'s fetch fails, its `Removed` dispatch hits its discord
sink and panics (C3), so `y.example`'s own `Removed` event is never
emitted: one domain's fetch failure is not isolated to that domain. -/
theorem c6_fetch_failure_not_isolated :
    (∀ m, m ≠ "x.example" → oC6x.whois m = oC6y.whois m) ∧
    oC6x.wparse = oC6y.wparse ∧ oC6x.lookupIP = oC6y.lookupIP ∧ oC6x.post = oC6y.post ∧
    eventsFor "y.example"
        (MonitorDomains oC6x cfgC6x [("x.example", "hx"), ("y.example", "hy")]).events =
      [⟨EventKind.removed, "y.example", removedMsg "y.example"⟩] ∧
    eventsFor "y.example"
        (MonitorDomains oC6y cfgC6x [("x.example", "hx"), ("y.example", "hy")]).events = [] := by
  refine ⟨fun m hm => by simp [oC6x, oC6y, hm], rfl, rfl, rfl, ?_, ?_⟩
  · decide
  · decide

/-- C6 (amended).  First, a delivery failure at one sink (unsupported kind,
transport error or non-2xx status) never prevents the simultaneous
attempts at the remaining sinks: the sink loop for a carried observation
attempts exactly the listed sinks, whatever the outcomes.  Second, one
domain's fetch pipeline failing affects no other domain: two completed
cycles under oracles that may differ arbitrarily at one domain produce
identical event lists for every other domain. -/
theorem c6_failure_isolation (post : Webhook → Payload → Except String Nat)
    (dname message : String) (i : DomainInfo) (whs : List Webhook)
    (o1 o2 : Oracles) (config : Config) (prev : List (String × String)) (d n : String)
    (hw : ∀ m, m ≠ d → o1.whois m = o2.whois m)
    (hparse : o1.wparse = o2.wparse)
    (hip : ∀ m, m ≠ d → o1.lookupIP m = o2.lookupIP m)
    (h1 : (MonitorDomains o1 config prev).result.isSome)
    (h2 : (MonitorDomains o2 config prev).result.isSome)
    (hn : n ≠ d) :
    ((sendSeq post dname message (some i) whs).2 = false ∧
      (sendSeq post dname message (some i) whs).1.map Delivery.webhook = whs) ∧
    eventsFor n (MonitorDomains o1 config prev).events =
      eventsFor n (MonitorDomains o2 config prev).events := by
  have hobs : ∀ m, m ≠ d → observeFull o1 m = observeFull o2 m := by
    intro m hm
    unfold observeFull ResolveIP
    rw [hw m hm, hparse, hip m hm]
  constructor
  · constructor
    · rw [sendSeq_some]
    · rw [sendSeq_some]
      have hcomp : (Delivery.webhook ∘ fun wh =>
          (⟨dname, wh, message, sendOutcomeSome post wh message i⟩ : Delivery)) =
          (fun wh : Webhook => wh) := rfl
      rw [List.map_map, hcomp]
      exact List.map_id' whs
  · obtain ⟨hpan1, heq1⟩ := monitorDomains_eq o1 config prev h1
    obtain ⟨hpan2, heq2⟩ := monitorDomains_eq o2 config prev h2
    have hev1 : (MonitorDomains o1 config prev).events =
        config.domains.flatMap (domEvents o1 prev) ++
          prev.flatMap (remEvents (statesAfter o1 config.domains [])) := by rw [heq1]
    have hev2 : (MonitorDomains o2 config prev).events =
        config.domains.flatMap (domEvents o2 prev) ++
          prev.flatMap (remEvents (statesAfter o2 config.domains [])) := by rw [heq2]
    have hlkc : ∀ m, m ≠ d →
        lookupSM (statesAfter o1 config.domains []) m =
          lookupSM (statesAfter o2 config.domains []) m := by
      intro m hm
      rw [lookup_statesAfter o1 m config.domains [], lookup_statesAfter o2 m config.domains [],
        hobs m hm]
    rw [hev1, hev2, eventsFor_append, eventsFor_append,
      eventsFor_flatMap n Domain.name (domEvents o1 prev) (domEvents_domain o1 prev)
        config.domains,
      eventsFor_flatMap n Domain.name (domEvents o2 prev) (domEvents_domain o2 prev)
        config.domains,
      eventsFor_flatMap n Prod.fst (remEvents (statesAfter o1 config.domains []))
        (remEvents_domain (statesAfter o1 config.domains [])) prev,
      eventsFor_flatMap n Prod.fst (remEvents (statesAfter o2 config.domains []))
        (remEvents_domain (statesAfter o2 config.domains [])) prev]
    congr 1
    · refine List.flatMap_congr (fun x hx => ?_)
      have hxn : x.name = n := by
        have := (List.mem_filter.mp hx).2
        simpa using this
      have hxd : x.name ≠ d := by rw [hxn]; exact hn
      unfold domEvents
      rw [hobs x.name hxd]
    · refine List.flatMap_congr (fun e he => ?_)
      have hen : e.1 = n := by
        have := (List.mem_filter.mp he).2
        simpa using this
      have hed : e.1 ≠ d := by rw [hen]; exact hn
      unfold remEvents
      rw [hlkc e.1 hed]

/-- C6 witness: with the failing sink kinds present the loop still
attempts every sink, and the cycles under two oracles differing only at
`a.example` emit the same events for `b.example`. -/
theorem c6_failure_isolation_witness :
    ((sendSeq postOK "a.example" "m" (some infoC10) [whBogus, whTeams]).2 = false ∧
      (sendSeq postOK "a.example" "m" (some infoC10) [whBogus, whTeams]).1.map
        Delivery.webhook = [whBogus, whTeams]) ∧
    eventsFor "b.example" (MonitorDomains oC6a cfgC6w [("b.example", "h")]).events =
      eventsFor "b.example" (MonitorDomains oC6b cfgC6w [("b.example", "h")]).events :=
  c6_failure_isolation postOK "a.example" "m" infoC10 [whBogus, whTeams]
    oC6a oC6b cfgC6w [("b.example", "h")] "a.example" "b.example"
    (fun m hm => by simp [oC6a, oC6b, hm])
    rfl
    (fun m hm => rfl)
    (by decide) (by decide) (by decide)

/-! C10: duplicate configuration entries for one name. -/

/-- Per-entry enabled-event count over the first loop's contributions:
one per configuration entry bearing the (observed, previously absent)
name, zero per other entry. -/
theorem count_enabled_aux (o : Oracles) (prev : List (String × String))
    (d : String) (info : DomainInfo)
    (hobs : observeFull o d = some info) (hnew : lookupSM prev d = none) :
    ∀ doms : List Domain,
      ((doms.flatMap (domEvents o prev)).filter
          (fun e => decide (e.kind = EventKind.enabled ∧ e.domain = d))).length =
        (doms.filter (fun dm => decide (dm.name = d))).length
  | [] => rfl
  | dom :: rest => by
      rw [List.flatMap_cons, List.filter_append, List.length_append]
      by_cases hdn : dom.name = d
      · have hobs2 : observeFull o dom.name = some info := by rw [hdn]; exact hobs
        have hnew2 : lookupSM prev dom.name = none := by rw [hdn]; exact hnew
        rw [List.filter_cons_of_pos (by simp [hdn])]
        simp only [domEvents, hobs2, hnew2]
        rw [List.length_cons]
        have hone : (([⟨EventKind.enabled, dom.name, enabledMsg dom.name⟩] : List Event).filter
            (fun e => decide (e.kind = EventKind.enabled ∧ e.domain = d))).length = 1 := by
          simp [hdn]
        rw [hone, count_enabled_aux o prev d info hobs hnew rest]
        omega
      · have hzero : ((domEvents o prev dom).filter
            (fun e => decide (e.kind = EventKind.enabled ∧ e.domain = d))) = [] := by
          refine List.filter_eq_nil_iff.mpr (fun e he => ?_)
          have := domEvents_domain o prev dom e he
          simp [this, hdn]
        rw [List.filter_cons_of_neg (by simp [hdn]), hzero]
        simp only [List.length_nil, Nat.zero_add]
        exact count_enabled_aux o prev d info hobs hnew rest

/-- C10.  When one name appears several times in the configuration, each
occurrence is classified against the previous map, not against the
cycle's earlier occurrences: a previously absent, observed name yields
one `Enabled` event per occurrence, and the returned map binds the name
to the fingerprint of its (last) successful observation. -/
theorem c10_duplicate_occurrences (o : Oracles) (config : Config)
    (prev : List (String × String)) (d : String) (info : DomainInfo)
    (hobs : observeFull o d = some info)
    (hnew : lookupSM prev d = none)
    (hok : (MonitorDomains o config prev).result.isSome) :
    ((MonitorDomains o config prev).events.filter
        (fun e => decide (e.kind = EventKind.enabled ∧ e.domain = d))).length =
      (config.domains.filter (fun dm => decide (dm.name = d))).length ∧
    (MonitorDomains o config prev).result = some (statesAfter o config.domains []) ∧
    (config.domains.any (fun dm => decide (dm.name = d)) = true →
      lookupSM (statesAfter o config.domains []) d = some (HashDomainInfo info)) := by
  obtain ⟨hpan, heq⟩ := monitorDomains_eq o config prev hok
  refine ⟨?_, by rw [heq], ?_⟩
  · have hev : (MonitorDomains o config prev).events =
        config.domains.flatMap (domEvents o prev) ++
          prev.flatMap (remEvents (statesAfter o config.domains [])) := by rw [heq]
    rw [hev, List.filter_append, List.length_append]
    have hrem : ((prev.flatMap (remEvents (statesAfter o config.domains []))).filter
        (fun e => decide (e.kind = EventKind.enabled ∧ e.domain = d))) = [] := by
      refine List.filter_eq_nil_iff.mpr (fun e he => ?_)
      obtain ⟨entry, _, hmem⟩ := List.mem_flatMap.mp he
      have := remEvents_kind (statesAfter o config.domains []) entry e hmem
      simp [this]
    rw [hrem, count_enabled_aux o prev d info hobs hnew config.domains]
    simp
  · intro hany
    rw [lookup_statesAfter o d config.domains [], hany]
    simp [hobs, lookupSM]

set_option maxRecDepth 400000 in
/-- C10 witness: a configuration naming `dup.example` twice, previously
unmonitored and fully observed, yields two `Enabled` classifications and
stores the observation's fingerprint in the returned map. -/
theorem c10_duplicate_occurrences_witness :
    ((MonitorDomains oC10 cfgC10 []).events.filter
        (fun e => decide (e.kind = EventKind.enabled ∧ e.domain = "dup.example"))).length =
      (cfgC10.domains.filter (fun dm => decide (dm.name = "dup.example"))).length ∧
    (MonitorDomains oC10 cfgC10 []).result = some (statesAfter oC10 cfgC10.domains []) ∧
    (cfgC10.domains.any (fun dm => decide (dm.name = "dup.example")) = true →
      lookupSM (statesAfter oC10 cfgC10.domains []) "dup.example" =
        some (HashDomainInfo infoC10)) :=
  c10_duplicate_occurrences oC10 cfgC10 [] "dup.example" infoC10 (by decide) rfl (by decide)

/-! C4: dispatch of Removed notifications. -/

/-- C4 counterexample: a vanished domain whose sink list is a discord
sink followed by a teams sink receives no delivery at all — the discord
payload rendering panics on the missing observation, so the teams sink
and the cycle's return are both lost, instead of each sink receiving
exactly one Removed notification. -/
theorem c4_removed_discord_starves_siblings :
    (MonitorDomains oFailAll cfgC4x [("gone.example", "oldhash")]).deliveries = [] ∧
    (MonitorDomains oFailAll cfgC4x [("gone.example", "oldhash")]).result = none := by
  constructor
  · decide
  · decide

/-- C4 amended: for a domain of the previous map not observed this
cycle, provided the cycle completes (no discord sink is consulted with
the missing observation — see the panic of C3), exactly one `Removed`
notification is attempted per sink: the attempted sinks are exactly the
webhook lists of the config entries bearing the name followed by the
global sinks, each with the `Removed` summary. -/
theorem c4_removed_dispatch (o : Oracles) (config : Config)
    (prev : List (String × String)) (d h : String)
    (hprev : (prev.map Prod.fst).Nodup)
    (hlk : lookupSM prev d = some h)
    (hgone : lookupSM (statesAfter o config.domains []) d = none)
    (hok : (MonitorDomains o config prev).result.isSome) :
    (deliveriesFor d (MonitorDomains o config prev).deliveries).map Delivery.webhook =
      remSinks config d ∧
    ∀ dl ∈ deliveriesFor d (MonitorDomains o config prev).deliveries,
      dl.message = removedMsg d := by
  obtain ⟨hpan, heq⟩ := monitorDomains_eq o config prev hok
  have hdel : (MonitorDomains o config prev).deliveries =
      config.domains.flatMap (domDeliveries o config prev) ++
        prev.flatMap (remDeliveries o config (statesAfter o config.domains [])) := by rw [heq]
  have hobsd : observeFull o d = none ∨
      config.domains.any (fun dm => decide (dm.name = d)) = false := by
    rw [lookup_statesAfter o d config.domains []] at hgone
    cases hany : config.domains.any (fun dm => decide (dm.name = d)) with
    | false => exact Or.inr rfl
    | true =>
        left
        rw [hany] at hgone
        simp only [if_true] at hgone
        cases hobs : observeFull o d with
        | none => rfl
        | some info => rw [hobs] at hgone; simp [lookupSM] at hgone
  have hA : (config.domains.filter (fun dm => decide (dm.name = d))).flatMap
      (domDeliveries o config prev) = [] := by
    refine List.flatMap_eq_nil_iff.mpr (fun dom hdom => ?_)
    obtain ⟨hin, hdx⟩ := List.mem_filter.mp hdom
    have hname : dom.name = d := by simpa using hdx
    rcases hobsd with hobs | hany
    · unfold domDeliveries
      rw [hname, hobs]
    · exfalso
      have hx : config.domains.any (fun dm => decide (dm.name = d)) = true :=
        List.any_eq_true.mpr ⟨dom, hin, hdx⟩
      rw [hany] at hx
      cases hx
  have hmem := lookupSM_mem d h prev hlk
  have hsq := runRemoved_entry_no_panic o config (statesAfter o config.domains []) prev hpan
    (d, h) hmem (by simp [hgone])
  have hrd : remDeliveries o config (statesAfter o config.domains []) (d, h) =
      (sendSeq o.post d (removedMsg d) none (remSinks config d)).1 := by
    unfold remDeliveries
    simp [hgone]
  rw [hdel, deliveriesFor_append,
    deliveriesFor_flatMap d Domain.name (domDeliveries o config prev)
      (domDeliveries_domain o config prev) config.domains,
    deliveriesFor_flatMap d Prod.fst (remDeliveries o config (statesAfter o config.domains []))
      (remDeliveries_domain o config (statesAfter o config.domains [])) prev,
    lookup_filter_nodup d prev hprev, hlk, hA]
  simp only [List.nil_append, List.flatMap_cons, List.flatMap_nil, List.append_nil]
  rw [hrd]
  constructor
  · exact sendSeq_no_panic_map o.post d (removedMsg d) none (remSinks config d) hsq
  · intro dl hdl
    exact (sendSeq_mem o.post d (removedMsg d) none (remSinks config d) dl hdl).2

/-- C4 witness: the vanished `gone.example` with one domain-level teams
sink and one global teams sink receives exactly one Removed attempt per
sink, in that order. -/
theorem c4_removed_dispatch_witness :
    (deliveriesFor "gone.example"
        (MonitorDomains oFailAll cfgC4w [("gone.example", "oldhash")]).deliveries).map
      Delivery.webhook = remSinks cfgC4w "gone.example" :=
  (c4_removed_dispatch oFailAll cfgC4w [("gone.example", "oldhash")] "gone.example" "oldhash"
    (by decide) rfl (by decide) (by decide)).1

end DomainMonitor
